import Mathlib

/-!
Verification development for the `pganonymize` transformation engine
(`pganonymize/providers.py`).

The Python source is shallowly embedded: strings become `String`/`List Char`,
bytes become `Nat` values kept below 256 by explicit `% 256`, 32-bit machine
words become `Nat` with explicit `% 2 ^ 32`, and Python's `kwargs.get` lookups
become `Option` parameters.  Code that raises (`InvalidProvider`) is modelled
with `Option`.
-/

/-! ## MD5 (`hashlib.md5(...).hexdigest()`)

All identifier-derivation providers and the `md5` provider call
`hashlib.md5(value.encode('utf-8')).hexdigest()`.  The algorithm is embedded
below: padding, 64-byte block split, the 64-round compression function, and
little-endian serialization of the final 4-word state, rendered as 32
lowercase hexadecimal characters.
-/

/-- Truncation to a 32-bit machine word. -/
def mask32 (n : Nat) : Nat := n % 4294967296

/-- 32-bit left rotation (the operand is assumed `< 2 ^ 32`). -/
def rotl32 (x n : Nat) : Nat := mask32 (x <<< n ||| x >>> (32 - n))

/-- The 64 MD5 round constants `K[i] = floor(abs(sin(i + 1)) * 2 ^ 32)`. -/
def kTable : List Nat :=
  [0xd76aa478, 0xe8c7b756, 0x242070db, 0xc1bdceee,
   0xf57c0faf, 0x4787c62a, 0xa8304613, 0xfd469501,
   0x698098d8, 0x8b44f7af, 0xffff5bb1, 0x895cd7be,
   0x6b901122, 0xfd987193, 0xa679438e, 0x49b40821,
   0xf61e2562, 0xc040b340, 0x265e5a51, 0xe9b6c7aa,
   0xd62f105d, 0x02441453, 0xd8a1e681, 0xe7d3fbc8,
   0x21e1cde6, 0xc33707d6, 0xf4d50d87, 0x455a14ed,
   0xa9e3e905, 0xfcefa3f8, 0x676f02d9, 0x8d2a4c8a,
   0xfffa3942, 0x8771f681, 0x6d9d6122, 0xfde5380c,
   0xa4beea44, 0x4bdecfa9, 0xf6bb4b60, 0xbebfbc70,
   0x289b7ec6, 0xeaa127fa, 0xd4ef3085, 0x04881d05,
   0xd9d4d039, 0xe6db99e5, 0x1fa27cf8, 0xc4ac5665,
   0xf4292244, 0x432aff97, 0xab9423a7, 0xfc93a039,
   0x655b59c3, 0x8f0ccc92, 0xffeff47d, 0x85845dd1,
   0x6fa87e4f, 0xfe2ce6e0, 0xa3014314, 0x4e0811a1,
   0xf7537e82, 0xbd3af235, 0x2ad7d2bb, 0xeb86d391]

/-- The 64 per-round left-rotation amounts. -/
def sTable : List Nat :=
  [7, 12, 17, 22, 7, 12, 17, 22, 7, 12, 17, 22, 7, 12, 17, 22,
   5, 9, 14, 20, 5, 9, 14, 20, 5, 9, 14, 20, 5, 9, 14, 20,
   4, 11, 16, 23, 4, 11, 16, 23, 4, 11, 16, 23, 4, 11, 16, 23,
   6, 10, 15, 21, 6, 10, 15, 21, 6, 10, 15, 21, 6, 10, 15, 21]

/-- The four 32-bit registers of the MD5 state. -/
structure MD5State where
  a : Nat
  b : Nat
  c : Nat
  d : Nat

/-- The fixed MD5 initialization vector. -/
def md5Init : MD5State := ⟨0x67452301, 0xefcdab89, 0x98badcfe, 0x10325476⟩

/-- Word `g` of a 64-byte block, assembled little-endian from 4 bytes. -/
def mWord (block : List Nat) (g : Nat) : Nat :=
  block.getD (4 * g) 0 + 256 * block.getD (4 * g + 1) 0 +
    65536 * block.getD (4 * g + 2) 0 + 16777216 * block.getD (4 * g + 3) 0

/-- One MD5 round `i` (0 ≤ i < 64) on the current state. -/
def md5Round (block : List Nat) (st : MD5State) (i : Nat) : MD5State :=
  let fg : Nat × Nat :=
    if i < 16 then
      ((st.b &&& st.c) ||| ((4294967295 ^^^ st.b) &&& st.d), i)
    else if i < 32 then
      ((st.d &&& st.b) ||| ((4294967295 ^^^ st.d) &&& st.c), (5 * i + 1) % 16)
    else if i < 48 then
      (st.b ^^^ st.c ^^^ st.d, (3 * i + 5) % 16)
    else
      (st.c ^^^ (st.b ||| (4294967295 ^^^ st.d)), (7 * i) % 16)
  let f := mask32 (fg.1 + st.a + kTable.getD i 0 + mWord block fg.2)
  ⟨st.d, mask32 (st.b + rotl32 f (sTable.getD i 0)), st.b, st.c⟩

/-- MD5 compression of one 64-byte block into the running state. -/
def md5Compress (st : MD5State) (block : List Nat) : MD5State :=
  let e := (List.range 64).foldl (md5Round block) st
  ⟨mask32 (st.a + e.a), mask32 (st.b + e.b), mask32 (st.c + e.c), mask32 (st.d + e.d)⟩

/-- The 8 little-endian bytes of the 64-bit bit-length field. -/
def md5LenBytes (byteLen : Nat) : List Nat :=
  (List.range 8).map (fun i => (8 * byteLen) >>> (8 * i) % 256)

/-- MD5 padding: `0x80`, zeros up to 56 mod 64, then the 64-bit length. -/
def md5Pad (msg : List Nat) : List Nat :=
  msg ++ [128] ++ List.replicate ((55 + 64 - msg.length % 64) % 64) 0 ++
    md5LenBytes msg.length

/-- Split a byte list into 64-byte blocks; the fuel bounds the recursion. -/
def chunks64 : Nat → List Nat → List (List Nat)
  | 0, _ => []
  | _ + 1, [] => []
  | fuel + 1, l => l.take 64 :: chunks64 fuel (l.drop 64)

/-- All 64-byte blocks of a byte list (the padded list's length is a
multiple of 64, so no ragged final block occurs on reachable inputs). -/
def md5Chunks (l : List Nat) : List (List Nat) := chunks64 l.length l

/-- The final MD5 state after absorbing a whole (unpadded) message. -/
def md5Final (msg : List Nat) : MD5State :=
  (md5Chunks (md5Pad msg)).foldl md5Compress md5Init

/-- The 4 little-endian bytes of a 32-bit word. -/
def wordLE (w : Nat) : List Nat :=
  [w % 256, w >>> 8 % 256, w >>> 16 % 256, w >>> 24 % 256]

/-- The 16-byte MD5 digest of a byte list. -/
def md5Bytes (msg : List Nat) : List Nat :=
  wordLE (md5Final msg).a ++ wordLE (md5Final msg).b ++
    wordLE (md5Final msg).c ++ wordLE (md5Final msg).d

/-- The 16 lowercase hexadecimal digit characters. -/
def hexDigits : List Char := "0123456789abcdef".data

/-- The two hexadecimal characters of one byte (`'%02x'` rendering). -/
def byteHexChars (b : Nat) : List Char :=
  [hexDigits.getD (b / 16) '0', hexDigits.getD (b % 16) '0']

/-- UTF-8 encoding of one character (Python `str.encode('utf-8')`). -/
def utf8Char (c : Char) : List Nat :=
  let n := c.toNat
  if n < 128 then [n]
  else if n < 2048 then [192 + n / 64, 128 + n % 64]
  else if n < 65536 then [224 + n / 4096, 128 + n / 64 % 64, 128 + n % 64]
  else [240 + n / 262144, 128 + n / 4096 % 64, 128 + n / 64 % 64, 128 + n % 64]

/-- UTF-8 encoding of a string as a byte list. -/
def pyUtf8 (s : String) : List Nat := s.data.flatMap utf8Char

/-- `hashlib.md5(s.encode('utf-8')).hexdigest()`: the 32-character lowercase
hexadecimal digest string. -/
def md5HexString (s : String) : String :=
  String.mk ((md5Bytes (pyUtf8 s)).flatMap byteHexChars)

/-! ## Hexadecimal parsing (`int(pair, 16)`) and digest pair streams -/

/-- Value of one hexadecimal character (`int` accepts both cases; other
characters cannot occur in a digest and default to 0). -/
def hexCharVal (c : Char) : Nat :=
  if 48 <= c.toNat && c.toNat <= 57 then c.toNat - 48
  else if 97 <= c.toNat && c.toNat <= 102 then c.toNat - 87
  else if 65 <= c.toNat && c.toNat <= 70 then c.toNat - 55
  else 0

/-- `int(s, 16)` on a hexadecimal character list. -/
def hexVal (p : List Char) : Nat :=
  p.foldl (fun acc c => 16 * acc + hexCharVal c) 0

/-- Split a character list into consecutive pairs: the
`crypt[index : index + 2] for index in range(0, len, 2)` loop with `n = 2`. -/
def chunk2 : List Char → List (List Char)
  | [] => []
  | [a] => [[a]]
  | a :: b :: rest => [a, b] :: chunk2 rest

/-- Letter-stream symbol of one digest pair: `chr(ord('A') + v % 26)`. -/
def fcLetter (p : List Char) : Char := Char.ofNat (65 + hexVal p % 26)

/-- Digit-stream symbol of one digest pair: `str(v % 10)`. -/
def fcDigit (p : List Char) : Char := Char.ofNat (48 + hexVal p % 10)

/-! ## `fiscalcode` provider (`FiscalCodeProvider.alter_value`) -/

/-- `int(c)` for a single decimal-digit character. -/
def digitVal (c : Char) : Nat := c.toNat - 48

/-- The `char_month` list of `check_month`. -/
def char_month : List Char :=
  ['A', 'B', 'C', 'D', 'E', 'H', 'L', 'M', 'P', 'R', 'S', 'T']

/-- `check_month`: keep the candidate letter if it is in `char_month`,
otherwise use `char_month[4]`. -/
def check_month (month_character : Char) : Char :=
  if month_character ∈ char_month then month_character else char_month.getD 4 'E'

/-- `check_day`: replace `n_day[3]` by `'1'` if its value exceeds 7, then
return `n_day[3:5]`. -/
def check_day (n_day : List Char) : List Char :=
  let n_day := if digitVal (n_day.getD 3 '0') > 7 then n_day.set 3 '1' else n_day
  (n_day.drop 3).take 2

/-- The `characters` list: every digest pair mapped through the letter
stream. -/
def fiscalcode_characters (s : String) : List Char :=
  (chunk2 (md5HexString s).data).map fcLetter

/-- The `numbers` list: digest pairs from index 6 on, mapped through the
digit stream (`split_string[6:]`). -/
def fiscalcode_numbers (s : String) : List Char :=
  ((chunk2 (md5HexString s).data).drop 6).map fcDigit

/-- `generate_fiscal_code(fc_characters, fc_numbers)`: the 6+2+1+2+1+3+1
assembly of the person identifier. -/
def generate_fiscal_code (fc_characters fc_numbers : List Char) : List Char :=
  fc_characters.take 6 ++ fc_numbers.take 2 ++
    [check_month (fc_characters.getD 8 'A')] ++ check_day fc_numbers ++
    [fc_characters.getD 11 'A'] ++ (fc_numbers.drop 6).take 3 ++
    [fc_characters.getD 12 'A']

/-- `FiscalCodeProvider.alter_value`. -/
def fiscalcode_alter_value (s : String) : String :=
  String.mk (generate_fiscal_code (fiscalcode_characters s) (fiscalcode_numbers s))

/-! ## `vatnumber` and `fiscalcodebusiness` providers -/

/-- `VatNumberProvider.alter_value`: digest of `original_value[2:]`, all
pairs through the digit stream, first 9 digits behind an `'IT'`. -/
def vatnumber_alter_value (s : String) : String :=
  "IT" ++ String.mk (((chunk2 (md5HexString (String.mk (s.data.drop 2))).data).map fcDigit).take 9)

/-- `FiscalCodeBusinessProvider.alter_value`: digest of the whole input
(`original_value[:]`), all pairs through the digit stream, first 9 digits. -/
def fiscalcodebusiness_alter_value (s : String) : String :=
  String.mk (((chunk2 (md5HexString s).data).map fcDigit).take 9)

/-! ## `fiscalcodevat` provider (`FiscalCodeVatNumberProvider.alter_value`)

The source duplicates both algorithms inline (with its own local
`check_day` / `check_month`); the duplicates are re-translated separately so
that the equivalence with the standalone providers is an actual theorem. -/

/-- Model of Python `str.isdigit` on one character, restricted to the ASCII
decimal digits `'0'..'9'` (Python additionally accepts other Unicode digit
characters; the model covers the identifiers this provider is fed). -/
def pyIsdigit (c : Char) : Bool := 48 <= c.toNat && c.toNat <= 57

/-- The inline `char_month` of the `fiscalcodevat` person branch. -/
def char_month_vat : List Char :=
  ['A', 'B', 'C', 'D', 'E', 'H', 'L', 'M', 'P', 'R', 'S', 'T']

/-- The inline `check_month` of the `fiscalcodevat` person branch. -/
def check_month_vat (character : Char) : Char :=
  if character ∈ char_month_vat then character else char_month_vat.getD 4 'E'

/-- The inline `check_day` of the `fiscalcodevat` person branch. -/
def check_day_vat (numbers : List Char) : List Char :=
  let numbers := if digitVal (numbers.getD 3 '0') > 7 then numbers.set 3 '1' else numbers
  (numbers.drop 3).take 2

/-- `FiscalCodeVatNumberProvider.alter_value`.  The source indexes
`original_value[0]` and hence raises `IndexError` on the empty string; the
model reads the first character with a non-digit placeholder default, and
claims about it carry a non-emptiness hypothesis. -/
def fiscalcodevat_alter_value (s : String) : String :=
  if pyIsdigit (s.data.getD 0 ' ') then
    String.mk (((chunk2 (md5HexString s).data).map fcDigit).take 9)
  else
    let split_string := chunk2 (md5HexString s).data
    let characters := split_string.map fcLetter
    let numbers := (split_string.drop 6).map fcDigit
    String.mk (characters.take 6 ++ numbers.take 2 ++
      [check_month_vat (characters.getD 8 'A')] ++ check_day_vat numbers ++
      [characters.getD 11 'A'] ++ (numbers.drop 6).take 3 ++
      [characters.getD 12 'A'])

/-! ## `mask`, `partial_mask` and `md5` providers -/

/-- Python string repetition `s * n` (and `n * s`); a non-positive count
yields the empty string, which `Nat` subtraction models upstream. -/
def pyStrMul (s : String) (n : Nat) : String :=
  String.mk (List.replicate n s.data).flatten

/-- `kwargs.get(key, default) or default` for string arguments: an absent
argument and the falsy empty string both fall back to the default. -/
def pyOrStr (o : Option String) (dflt : String) : String :=
  match o with
  | none => dflt
  | some s => if s.length = 0 then dflt else s

/-- `kwargs.get(key, default) or default` for numeric arguments: an absent
argument and the falsy value 0 both fall back to the default. -/
def pyOrNat (o : Option Nat) (dflt : Nat) : Nat :=
  match o with
  | none => dflt
  | some n => if n = 0 then dflt else n

/-- `MaskProvider.alter_value`: `sign * len(original_value)`. -/
def mask_alter_value (original_value : String) (sign : Option String) : String :=
  pyStrMul (pyOrStr sign "X") original_value.length

/-- Python negative-index tail slice `l[-r:]` for `r ≥ 1` (the effective
`unmasked_right` is never 0 because of the falsy-or fallback). -/
def pyTailSlice (l : List Char) (r : Nat) : List Char :=
  l.drop (l.length - r)

/-- `PartialMaskProvider.alter_value`: `original_value[:unmasked_left] +
(len - (unmasked_left + unmasked_right)) * sign + original_value[-unmasked_right:]`.
The `Nat`-truncated middle count models Python's empty string for a
non-positive repetition count. -/
def partial_mask_alter_value (original_value : String) (sign : Option String)
    (unmasked_left unmasked_right : Option Nat) : String :=
  let sgn := pyOrStr sign "X"
  let l := pyOrNat unmasked_left 1
  let r := pyOrNat unmasked_right 1
  String.mk (original_value.data.take l) ++
    pyStrMul sgn (original_value.length - (l + r)) ++
    String.mk (pyTailSlice original_value.data r)

/-- The value returned by `MD5Provider.alter_value`: a string, or an
integer when `as_number` is set. -/
inductive MD5Result where
  | str (s : String)
  | num (n : Nat)
deriving DecidableEq

/-- `MD5Provider.alter_value`: the hex digest, or
`int(hashed, 16) % (10 ** as_number_length)` when `as_number` is set
(`kwargs.get` defaults: `False` and 8). -/
def md5_alter_value (original_value : String) (as_number : Option Bool)
    (as_number_length : Option Nat) : MD5Result :=
  let hashed := md5HexString original_value
  if as_number.getD false then
    .num (hexVal hashed.data % 10 ^ as_number_length.getD 8)
  else
    .str hashed

/-! ## Registry and dispatch (`ProviderRegistry.get_provider`)

`get_provider` walks the registration-ordered `OrderedDict` and returns the
first class whose key matches: by `re.match` (prefix-anchored) when the
class sets `regex_match`, or by string equality otherwise.  A small
derivative-based matcher models `re.match` for the registered key syntax
(literal characters, `.`, and a trailing `+` on the previous atom); the only
registered pattern key is `"fake.+"`. -/

/-- Regular expressions over characters, as needed for the registered keys. -/
inductive RE where
  | fail
  | eps
  | chr (c : Char)
  | dot
  | alt (a b : RE)
  | cat (a b : RE)
  | star (a : RE)

/-- Whether a regular expression accepts the empty string. -/
def nullableRE : RE → Bool
  | .fail => false
  | .eps => true
  | .chr _ => false
  | .dot => false
  | .alt a b => nullableRE a || nullableRE b
  | .cat a b => nullableRE a && nullableRE b
  | .star _ => true

/-- Brzozowski derivative of a regular expression by one character. -/
def derivRE (r : RE) (x : Char) : RE :=
  match r with
  | .fail => .fail
  | .eps => .fail
  | .chr c => if x = c then .eps else .fail
  | .dot => .eps
  | .alt a b => .alt (derivRE a x) (derivRE b x)
  | .cat a b =>
      if nullableRE a then .alt (.cat (derivRE a x) b) (derivRE b x)
      else .cat (derivRE a x) b
  | .star a => .cat (derivRE a x) (.star a)

/-- Prefix-anchored match (`re.match` semantics): succeed as soon as some
prefix of the input is accepted. -/
def reMatchFrom : RE → List Char → Bool
  | r, [] => nullableRE r
  | r, c :: rest => nullableRE r || reMatchFrom (derivRE r c) rest

/-- Parse a key string into its atom list; `.` is the any-character atom and
`+` turns the previous atom `a` into `a · a*`. -/
def reAtoms : List Char → List RE → List RE
  | [], acc => acc.reverse
  | c :: rest, acc =>
    if c = '.' then reAtoms rest (RE.dot :: acc)
    else if c = '+' then
      match acc with
      | a :: acc2 => reAtoms rest (RE.cat a (RE.star a) :: acc2)
      | [] => reAtoms rest acc
    else reAtoms rest (RE.chr c :: acc)

/-- `re.compile(key)` for the registered key syntax. -/
def compileRE (key : String) : RE :=
  (reAtoms key.data []).foldl RE.cat RE.eps

/-- `re.match(re.compile(key), provider_id) is not None`. -/
def re_match (key : String) (provider_id : String) : Bool :=
  reMatchFrom (compileRE key) provider_id.data

/-- The provider classes of `providers.py`, in source order. -/
inductive ProviderClass where
  | ChoiceProvider
  | ClearProvider
  | FakeProvider
  | MaskProvider
  | PartialMaskProvider
  | MD5Provider
  | SetProvider
  | UUID4Provider
  | FiscalCodeProvider
  | VatNumberProvider
  | FiscalCodeBusinessProvider
  | FiscalCodeVatNumberProvider
  | PhoneNumberItaProvider
  | RandomIDCardProvider
  | ApiKeyProvider
  | JsonStringProvider
  | SameYearProvider
deriving DecidableEq

/-- The `regex_match` class attribute: `True` only on `FakeProvider`. -/
def regex_match : ProviderClass → Bool
  | .FakeProvider => true
  | _ => false

/-- The registry contents in registration (decorator) order. -/
def provider_registry : List (String × ProviderClass) :=
  [("choice", .ChoiceProvider),
   ("clear", .ClearProvider),
   ("fake.+", .FakeProvider),
   ("mask", .MaskProvider),
   ("partial_mask", .PartialMaskProvider),
   ("md5", .MD5Provider),
   ("set", .SetProvider),
   ("uuid4", .UUID4Provider),
   ("fiscalcode", .FiscalCodeProvider),
   ("vatnumber", .VatNumberProvider),
   ("fiscalcodebusiness", .FiscalCodeBusinessProvider),
   ("fiscalcodevat", .FiscalCodeVatNumberProvider),
   ("phonenumberita", .PhoneNumberItaProvider),
   ("randomidcard", .RandomIDCardProvider),
   ("apikey", .ApiKeyProvider),
   ("jsonstring", .JsonStringProvider),
   ("sameyear", .SameYearProvider)]

/-- The loop body condition of `get_provider`: a registered entry matches
the requested id by anchored regex (pattern entries) or by equality. -/
def entry_matches (e : String × ProviderClass) (provider_id : String) : Bool :=
  (regex_match e.2 && re_match e.1 provider_id) || e.1 == provider_id

/-- The `for key, cls in self._registry.items()` loop of `get_provider`;
`none` models the final `raise InvalidProvider`. -/
def get_provider_from : List (String × ProviderClass) → String → Option ProviderClass
  | [], _ => none
  | (key, cls) :: rest, provider_id =>
    if (regex_match cls && re_match key provider_id) || key == provider_id then some cls
    else get_provider_from rest provider_id

/-- `ProviderRegistry.get_provider` on the module-level registry. -/
def get_provider (provider_id : String) : Option ProviderClass :=
  get_provider_from provider_registry provider_id

/-! ## Output shape predicates (from the spec's regular expressions) -/

/-- `[A-Z]`. -/
def isUpperAZ (c : Char) : Bool := 65 <= c.toNat && c.toNat <= 90

/-- `[0-9]`. -/
def isDigit09 (c : Char) : Bool := 48 <= c.toNat && c.toNat <= 57

/-- The person-identifier shape
`[A-Z]{6}[0-9]{2}[A-Z][0-9]{2}[A-Z][0-9]{3}[A-Z]` (16 characters). -/
def personPattern (s : String) : Bool :=
  match s.data with
  | [a1, a2, a3, a4, a5, a6, d1, d2, m, d3, d4, loc, d5, d6, d7, chk] =>
    isUpperAZ a1 && isUpperAZ a2 && isUpperAZ a3 && isUpperAZ a4 &&
    isUpperAZ a5 && isUpperAZ a6 && isDigit09 d1 && isDigit09 d2 &&
    isUpperAZ m && isDigit09 d3 && isDigit09 d4 && isUpperAZ loc &&
    isDigit09 d5 && isDigit09 d6 && isDigit09 d7 && isUpperAZ chk
  | _ => false

/-- The business-identifier shape: exactly 9 decimal digits. -/
def businessPattern (s : String) : Bool :=
  s.data.length == 9 && s.data.all isDigit09

/-- The VAT shape: `"IT"` followed by exactly 9 decimal digits. -/
def vatPattern (s : String) : Bool :=
  match s.data with
  | 'I' :: 'T' :: rest => rest.length == 9 && rest.all isDigit09
  | _ => false

/-- Spec accessor: the integer value of digest pair `i` of the input's
hex digest. -/
def digestPair (s : String) (i : Nat) : Nat :=
  hexVal ((chunk2 (md5HexString s).data).getD i [])

/-- Spec accessor: letter-stream symbol at position `i`
(`'A' + (pair i mod 26)`). -/
def letterStream (s : String) (i : Nat) : Char :=
  Char.ofNat (65 + digestPair s i % 26)

/-- Spec accessor: digit-stream symbol at position `j`
(digest pair `6 + j` mod 10). -/
def digitStream (s : String) (j : Nat) : Char :=
  Char.ofNat (48 + digestPair s (6 + j) % 10)

/-! ## Digest shape lemmas -/

theorem length_wordLE (w : Nat) : (wordLE w).length = 4 := by
  simp [wordLE]

theorem length_md5Bytes (msg : List Nat) : (md5Bytes msg).length = 16 := by
  simp [md5Bytes, wordLE]

theorem mem_wordLE_lt (w x : Nat) (hx : x ∈ wordLE w) : x < 256 := by
  simp only [wordLE, List.mem_cons, List.not_mem_nil, or_false] at hx
  rcases hx with h | h | h | h <;> subst h <;>
    exact Nat.mod_lt _ (by norm_num)

theorem mem_md5Bytes_lt (msg : List Nat) (x : Nat) (hx : x ∈ md5Bytes msg) :
    x < 256 := by
  simp only [md5Bytes, List.mem_append] at hx
  rcases hx with ((h | h) | h) | h <;> exact mem_wordLE_lt _ _ h

theorem length_flatMap_two {α β : Type} (f : α → List β)
    (hf : ∀ a, (f a).length = 2) (l : List α) :
    (l.flatMap f).length = 2 * l.length := by
  induction l with
  | nil => simp
  | cons a l ih =>
    simp only [List.flatMap_cons, List.length_append, ih, hf, List.length_cons]
    omega

theorem length_md5HexString_data (s : String) :
    (md5HexString s).data.length = 32 := by
  show ((md5Bytes (pyUtf8 s)).flatMap byteHexChars).length = 32
  rw [length_flatMap_two byteHexChars (fun b => by simp [byteHexChars]),
    length_md5Bytes]

theorem hexDigits_getD_mem (i : Nat) (hi : i < 16) :
    hexDigits.getD i '0' ∈ hexDigits := by
  interval_cases i <;> decide

theorem mem_md5HexString_hex (s : String) (c : Char)
    (hc : c ∈ (md5HexString s).data) : c ∈ hexDigits := by
  have hc' : c ∈ (md5Bytes (pyUtf8 s)).flatMap byteHexChars := hc
  rw [List.mem_flatMap] at hc'
  obtain ⟨b, hb, hcb⟩ := hc'
  have hblt : b < 256 := mem_md5Bytes_lt _ _ hb
  have h1 : b / 16 < 16 := by omega
  have h2 : b % 16 < 16 := Nat.mod_lt _ (by norm_num)
  simp only [byteHexChars, List.mem_cons, List.not_mem_nil, or_false] at hcb
  rcases hcb with h | h <;> subst h
  · exact hexDigits_getD_mem _ h1
  · exact hexDigits_getD_mem _ h2

/-! ## List helper lemmas -/

theorem chunk2_length_double (k : Nat) :
    ∀ l : List Char, l.length = 2 * k → (chunk2 l).length = k := by
  induction k with
  | zero =>
    intro l hl
    have : l = [] := List.length_eq_zero.mp (by omega)
    subst this; rfl
  | succ k ih =>
    intro l hl
    match l with
    | [] => simp at hl
    | [a] => simp at hl; omega
    | a :: b :: rest =>
      have : rest.length = 2 * k := by simp at hl; omega
      simp [chunk2, ih rest this]

theorem getD_mem_of_lt {α : Type} (l : List α) (i : Nat) (d : α)
    (h : i < l.length) : l.getD i d ∈ l := by
  induction l generalizing i with
  | nil => simp at h
  | cons a l ih =>
    cases i with
    | zero => simp
    | succ i =>
      simp only [List.getD_cons_succ]
      exact List.mem_cons_of_mem _ (ih i (by simpa using Nat.lt_of_succ_lt_succ h))

theorem exists_eq_of_length_sixteen {α : Type} (l : List α) (h : l.length = 16) :
    ∃ a0 a1 a2 a3 a4 a5 a6 a7 a8 a9 a10 a11 a12 a13 a14 a15 : α,
      l = [a0, a1, a2, a3, a4, a5, a6, a7, a8, a9, a10, a11, a12, a13, a14, a15] := by
  match l, h with
  | [a0, a1, a2, a3, a4, a5, a6, a7, a8, a9, a10, a11, a12, a13, a14, a15], _ =>
    exact ⟨a0, a1, a2, a3, a4, a5, a6, a7, a8, a9, a10, a11, a12, a13, a14, a15, rfl⟩

/-! ## Closed form of the `fiscalcode` output -/

theorem chunk2_digest_length (s : String) :
    (chunk2 (md5HexString s).data).length = 16 :=
  chunk2_length_double 16 _ (by rw [length_md5HexString_data])

theorem check_day_explicit (n0 n1 n2 n3 n4 n5 n6 n7 n8 n9 : Char) :
    check_day [n0, n1, n2, n3, n4, n5, n6, n7, n8, n9] =
      [if digitVal n3 > 7 then '1' else n3, n4] := by
  by_cases h : digitVal n3 > 7 <;> simp [check_day, h]

/-- The `fiscalcode` output, character by character, in terms of the
letter and digit streams of the input's digest. -/
theorem fiscalcode_alter_value_data (s : String) :
    (fiscalcode_alter_value s).data =
      [letterStream s 0, letterStream s 1, letterStream s 2, letterStream s 3,
       letterStream s 4, letterStream s 5, digitStream s 0, digitStream s 1,
       check_month (letterStream s 8),
       if digitVal (digitStream s 3) > 7 then '1' else digitStream s 3,
       digitStream s 4, letterStream s 11, digitStream s 6, digitStream s 7,
       digitStream s 8, letterStream s 12] := by
  obtain ⟨p0, p1, p2, p3, p4, p5, p6, p7, p8, p9, p10, p11, p12, p13, p14, p15, hp⟩ :=
    exists_eq_of_length_sixteen (chunk2 (md5HexString s).data) (chunk2_digest_length s)
  show (generate_fiscal_code (fiscalcode_characters s) (fiscalcode_numbers s)) = _
  simp only [fiscalcode_characters, fiscalcode_numbers, letterStream, digitStream,
    digestPair, hp, List.map_cons, List.map_nil, List.drop_succ_cons, List.drop_zero,
    generate_fiscal_code, check_day_explicit, fcLetter, fcDigit]
  simp

/-! ## Character classification of the streams -/

theorem isUpperAZ_ofNat_lt (v : Nat) (hv : v < 26) :
    isUpperAZ (Char.ofNat (65 + v)) = true := by
  interval_cases v <;> decide

theorem isDigit09_ofNat_lt (v : Nat) (hv : v < 10) :
    isDigit09 (Char.ofNat (48 + v)) = true := by
  interval_cases v <;> decide

theorem isUpperAZ_letterStream (s : String) (i : Nat) :
    isUpperAZ (letterStream s i) = true :=
  isUpperAZ_ofNat_lt _ (Nat.mod_lt _ (by norm_num))

theorem isDigit09_digitStream (s : String) (j : Nat) :
    isDigit09 (digitStream s j) = true :=
  isDigit09_ofNat_lt _ (Nat.mod_lt _ (by norm_num))

theorem char_month_all_upper : char_month.all isUpperAZ = true := by decide

theorem isUpperAZ_check_month (c : Char) :
    isUpperAZ (check_month c) = true := by
  unfold check_month
  by_cases h : c ∈ char_month
  · rw [if_pos h]
    exact List.all_eq_true.mp char_month_all_upper c h
  · rw [if_neg h]
    decide

theorem isDigit09_fcDigit (p : List Char) : isDigit09 (fcDigit p) = true :=
  isDigit09_ofNat_lt _ (Nat.mod_lt _ (by norm_num))

/-! ## Shapes of the business and VAT outputs -/

theorem business_digits_shape (s : String) :
    businessPattern (String.mk (((chunk2 (md5HexString s).data).map fcDigit).take 9)) = true := by
  have hlen : (((chunk2 (md5HexString s).data).map fcDigit).take 9).length = 9 := by
    rw [List.length_take, List.length_map, chunk2_digest_length]
    rfl
  have hall : ∀ c ∈ ((chunk2 (md5HexString s).data).map fcDigit).take 9, isDigit09 c = true := by
    intro c hc
    have hc' := List.mem_map.mp (List.take_subset _ _ hc)
    obtain ⟨p, _, hp⟩ := hc'
    rw [← hp]
    exact isDigit09_fcDigit p
  simp only [businessPattern, Bool.and_eq_true, beq_iff_eq, List.all_eq_true]
  exact ⟨hlen, hall⟩

theorem fiscalcodebusiness_shape (s : String) :
    businessPattern (fiscalcodebusiness_alter_value s) = true :=
  business_digits_shape s

theorem vatnumber_shape (s : String) :
    vatPattern (vatnumber_alter_value s) = true := by
  have h := business_digits_shape (String.mk (s.data.drop 2))
  simp only [businessPattern, Bool.and_eq_true, beq_iff_eq, List.all_eq_true] at h
  have hdata : (vatnumber_alter_value s).data =
      'I' :: 'T' :: ((chunk2 (md5HexString (String.mk (s.data.drop 2))).data).map fcDigit).take 9 := by
    show ("IT" ++ String.mk _).data = _
    rw [String.data_append]
    rfl
  simp only [vatPattern, hdata, Bool.and_eq_true, beq_iff_eq, List.all_eq_true]
  exact h

theorem isDigit09_day_first (s : String) :
    isDigit09 (if digitVal (digitStream s 3) > 7 then '1' else digitStream s 3) = true := by
  by_cases h : digitVal (digitStream s 3) > 7
  · rw [if_pos h]; decide
  · rw [if_neg h]; exact isDigit09_digitStream s 3

/-- Claim C1: for every input string, the `fiscalcode` provider's output has
length 16 and matches `[A-Z]{6}[0-9]{2}[A-Z][0-9]{2}[A-Z][0-9]{3}[A-Z]`, the
`fiscalcodebusiness` provider's output is exactly 9 decimal digits, and the
`vatnumber` provider's output is `"IT"` followed by exactly 9 decimal
digits. -/
theorem fiscalcode_family_structural_validity (s : String) :
    personPattern (fiscalcode_alter_value s) = true ∧
    businessPattern (fiscalcodebusiness_alter_value s) = true ∧
    vatPattern (vatnumber_alter_value s) = true := by
  refine ⟨?_, fiscalcodebusiness_shape s, vatnumber_shape s⟩
  simp only [personPattern, fiscalcode_alter_value_data]
  simp only [isUpperAZ_letterStream, isDigit09_digitStream, isUpperAZ_check_month,
    isDigit09_day_first, Bool.and_self]

/-- Claim C2: in the `fiscalcode` output, the 9th character is the
letter-stream symbol at position 8 when that letter is in the fixed
12-character month set and the 5th element of that set otherwise; the 10th
and 11th characters are digit-stream positions 3 and 4 (digest pairs 9 and
10 mod 10), with position 3 replaced by `'1'` whenever its value exceeds
7. -/
theorem fiscalcode_month_day_rules (s : String) :
    (fiscalcode_alter_value s).data.getD 8 ' ' =
      (if letterStream s 8 ∈ char_month then letterStream s 8
       else char_month.getD 4 ' ') ∧
    (fiscalcode_alter_value s).data.getD 9 ' ' =
      (if digitVal (digitStream s 3) > 7 then '1' else digitStream s 3) ∧
    (fiscalcode_alter_value s).data.getD 10 ' ' = digitStream s 4 := by
  rw [fiscalcode_alter_value_data]
  refine ⟨?_, by simp, by simp⟩
  simp only [List.getD_cons_succ, List.getD_cons_zero]
  unfold check_month
  by_cases h : letterStream s 8 ∈ char_month
  · rw [if_pos h, if_pos h]
  · rw [if_neg h, if_neg h]
    decide

/-- Claim C4: the `fiscalcode` derivation is deterministic — it is a pure
function of the input string, and in fact depends on the input only through
its MD5 digest. -/
theorem fiscalcode_deterministic (s : String) :
    fiscalcode_alter_value s = fiscalcode_alter_value s ∧
    ∀ t, md5HexString s = md5HexString t →
      fiscalcode_alter_value s = fiscalcode_alter_value t := by
  refine ⟨rfl, fun t h => ?_⟩
  unfold fiscalcode_alter_value fiscalcode_characters fiscalcode_numbers
  rw [h]

/-- Witness for C4 at a concrete input. -/
theorem fiscalcode_deterministic_witness :
    fiscalcode_alter_value "abc" = fiscalcode_alter_value "abc" :=
  (fiscalcode_deterministic "abc").2 "abc" rfl

/-- Claim C3: on non-empty inputs, the `fiscalcodevat` provider returns
exactly the `fiscalcodebusiness` output when the first character is a
decimal digit, and exactly the `fiscalcode` output otherwise: the two
inlined code paths are equivalent to the standalone providers. -/
theorem fiscalcodevat_dispatch (s : String) (h : s ≠ "") :
    (pyIsdigit (s.data.getD 0 ' ') = true →
      fiscalcodevat_alter_value s = fiscalcodebusiness_alter_value s) ∧
    (pyIsdigit (s.data.getD 0 ' ') = false →
      fiscalcodevat_alter_value s = fiscalcode_alter_value s) := by
  constructor <;> intro hd <;> simp only [fiscalcodevat_alter_value, hd] <;>
    simp only [if_true, Bool.false_eq_true, if_false]
  · rfl
  · rfl

/-- Witness for C3 at concrete inputs covering both branches. -/
theorem fiscalcodevat_dispatch_witness :
    fiscalcodevat_alter_value "12345678901" = fiscalcodebusiness_alter_value "12345678901" ∧
    fiscalcodevat_alter_value "Mario" = fiscalcode_alter_value "Mario" :=
  ⟨(fiscalcodevat_dispatch "12345678901" (by decide)).1 (by decide),
   (fiscalcodevat_dispatch "Mario" (by decide)).2 (by decide)⟩

/-! ## Registry dispatch lemmas -/

theorem get_provider_from_eq_find (l : List (String × ProviderClass)) (pid : String) :
    get_provider_from l pid = (l.find? (fun e => entry_matches e pid)).map Prod.snd := by
  induction l with
  | nil => rfl
  | cons e rest ih =>
    rcases e with ⟨key, cls⟩
    cases hm : entry_matches (key, cls) pid
    · simp only [entry_matches] at hm
      simp [get_provider_from, List.find?_cons, hm, ih, entry_matches]
    · simp only [entry_matches] at hm
      simp [get_provider_from, List.find?_cons, hm, entry_matches]

/-- Claim C5: `get_provider` is first-match-wins in registration order — it
returns the mapped result of the first registry entry matching the
requested id (anchored-regex match for pattern entries, exact equality for
literal entries); in particular `"fake.first_name"` resolves to the pattern
provider registered under `"fake.+"`, although no entry has that literal
key. -/
theorem registry_first_match_dispatch :
    (∀ provider_id, get_provider provider_id =
      (provider_registry.find? (fun e => entry_matches e provider_id)).map Prod.snd) ∧
    get_provider "fake.first_name" = some ProviderClass.FakeProvider ∧
    provider_registry.all (fun e => !(e.1 == "fake.first_name")) = true := by
  exact ⟨fun pid => get_provider_from_eq_find _ _, by decide, by decide⟩

/-- Claim C6: `get_provider` fails (models `raise InvalidProvider`) exactly
when no registered entry matches the requested id, and it is pure, so
repeated calls agree. -/
theorem registry_unknown_provider (provider_id : String) :
    (get_provider provider_id = none ↔
      provider_registry.all (fun e => !(entry_matches e provider_id)) = true) ∧
    get_provider provider_id = get_provider provider_id := by
  refine ⟨?_, rfl⟩
  rw [show get_provider provider_id = _ from
    get_provider_from_eq_find provider_registry provider_id]
  simp only [Option.map_eq_none', List.find?_eq_none, List.all_eq_true,
    Bool.not_eq_true]
  constructor <;> intro h x hx <;> simpa using h x hx

/-! ## `mask` provider claims -/

theorem flatten_replicate_singleton {α : Type} (n : Nat) (c : α) :
    (List.replicate n [c]).flatten = List.replicate n c := by
  induction n with
  | zero => rfl
  | succ n ih => simp [List.replicate_succ, ih]

/-- Counterexample to claim C7 as stated: with the configured sign `"**"`
(Python permits any string), `mask` returns `sign * len(input)`, whose
length is `len(sign) * len(input)`, not `len(input)`. -/
theorem mask_same_length_counterexample :
    ¬((mask_alter_value "ab" (some "**")).length = ("ab" : String).length) := by
  decide

/-- Claim C7 (amended): when the effective sign — the configured one, with
an absent or empty sign falling back to `"X"` — is a single character, the
`mask` output has the same length as the input and consists of that
character repeated; in particular `mask("secret", sign="*") = "******"`. -/
theorem mask_single_char_sign (s : String) (sgn : Option String)
    (h : (pyOrStr sgn "X").length = 1) :
    (mask_alter_value s sgn).data =
      List.replicate s.length ((pyOrStr sgn "X").data.getD 0 'X') ∧
    (mask_alter_value s sgn).length = s.length ∧
    mask_alter_value "secret" (some "*") = "******" := by
  set x := pyOrStr sgn "X" with hx
  obtain ⟨c, hc⟩ := List.length_eq_one.mp (show x.data.length = 1 from h)
  have hdata : (mask_alter_value s sgn).data =
      List.replicate s.length (x.data.getD 0 'X') := by
    show ((List.replicate s.length x.data).flatten) = _
    rw [hc]
    exact flatten_replicate_singleton _ _
  refine ⟨hdata, ?_, by decide⟩
  show (mask_alter_value s sgn).data.length = _
  rw [hdata, List.length_replicate]

/-- Witness for the amended C7 at a concrete input. -/
theorem mask_single_char_sign_witness :
    mask_alter_value "secret" (some "*") = "******" :=
  (mask_single_char_sign "secret" (some "*") (by decide)).2.2

/-! ## `partial_mask` provider claims -/

/-- Counterexample to claim C8 as stated: with configured
`unmasked_left = unmasked_right = 0` (and input `"ab"`, whose length is at
least 0 + 0), the claim predicts `"" + sign * 2 + "" = "XX"`, but the
source coerces the falsy 0 back to the default 1 via `or`, yielding
`"ab"`. -/
theorem partial_mask_zero_args_counterexample :
    ¬(partial_mask_alter_value "ab" none (some 0) (some 0) =
        String.mk ("ab".data.take 0) ++ pyStrMul "X" (("ab" : String).length - (0 + 0)) ++
          String.mk ("ab".data.drop (("ab" : String).length - 0))) := by
  decide

/-- Claim C8 (amended): with the effective argument values — a configured
value of 0, like an absent one, falls back to the default 1, and an empty
sign falls back to `"X"` — and an input at least `unmasked_left +
unmasked_right` long, `partial_mask` keeps the first `unmasked_left` and
last `unmasked_right` input characters around a middle of the sign repeated
`len - unmasked_left - unmasked_right` times; in particular
`partial_mask("1234567890", unmasked_left=2, unmasked_right=2, sign="X")`
is `"12XXXXXX90"`. -/
theorem partial_mask_preserves_ends (s : String) (sgn : Option String)
    (ul ur : Option Nat)
    (h : pyOrNat ul 1 + pyOrNat ur 1 ≤ s.length) :
    (partial_mask_alter_value s sgn ul ur).data =
      s.data.take (pyOrNat ul 1) ++
        (List.replicate (s.length - (pyOrNat ul 1 + pyOrNat ur 1))
          (pyOrStr sgn "X").data).flatten ++
        s.data.drop (s.length - pyOrNat ur 1) ∧
    (s.data.take (pyOrNat ul 1)).length = pyOrNat ul 1 ∧
    (s.data.drop (s.length - pyOrNat ur 1)).length = pyOrNat ur 1 ∧
    partial_mask_alter_value "1234567890" (some "X") (some 2) (some 2) =
      "12XXXXXX90" := by
  have hs : s.length = s.data.length := rfl
  refine ⟨?_, ?_, ?_, by decide⟩
  · show (String.mk _ ++ pyStrMul _ _ ++ String.mk _).data = _
    rw [String.data_append, String.data_append]
    rfl
  · rw [List.length_take]
    omega
  · rw [List.length_drop]
    omega

/-- Witness for the amended C8 at the spec's concrete example. -/
theorem partial_mask_preserves_ends_witness :
    pyOrNat (some 2) 1 + pyOrNat (some 2) 1 ≤ ("1234567890" : String).length ∧
    partial_mask_alter_value "1234567890" (some "X") (some 2) (some 2) =
      "12XXXXXX90" :=
  ⟨by decide,
   (partial_mask_preserves_ends "1234567890" (some "X") (some 2) (some 2)
      (by decide)).2.2.2⟩

theorem take_min_length {α : Type} (xs : List α) (n : Nat) :
    xs.take n = xs.take (min n xs.length) := by
  rcases Nat.le_total n xs.length with h | h
  · rw [Nat.min_eq_left h]
  · rw [Nat.min_eq_right h, List.take_of_length_le h, List.take_length]

/-- Claim C10: when the effective `unmasked_left + unmasked_right` is at
least the input length, the masked middle is empty and the output is the
first `min(unmasked_left, len)` characters followed by the last
`min(unmasked_right, len)` characters, so the end slices may overlap and
the output may exceed the input length (`"ab"` with 2 and 2 gives
`"abab"`), with no clamping. -/
theorem partial_mask_overlap_boundary (s : String) (sgn : Option String)
    (ul ur : Option Nat)
    (h : s.length ≤ pyOrNat ul 1 + pyOrNat ur 1) :
    (partial_mask_alter_value s sgn ul ur).data =
      s.data.take (min (pyOrNat ul 1) s.length) ++
        s.data.drop (s.length - min (pyOrNat ur 1) s.length) ∧
    partial_mask_alter_value "ab" none (some 2) (some 2) = "abab" := by
  have hs : s.length = s.data.length := rfl
  refine ⟨?_, by decide⟩
  show (String.mk _ ++ pyStrMul _ _ ++ String.mk _).data = _
  rw [String.data_append, String.data_append]
  rw [show s.length - (pyOrNat ul 1 + pyOrNat ur 1) = 0 from by omega]
  show s.data.take (pyOrNat ul 1) ++ [] ++ s.data.drop (s.data.length - pyOrNat ur 1) = _
  rw [List.append_nil]
  conv_rhs => rw [hs]
  rw [show s.data.length - pyOrNat ur 1 =
      s.data.length - min (pyOrNat ur 1) s.data.length from by omega,
    ← take_min_length]

/-- Witness for C10 at the overlapping concrete input. -/
theorem partial_mask_overlap_boundary_witness :
    ("ab" : String).length ≤ pyOrNat (some 2) 1 + pyOrNat (some 2) 1 ∧
    partial_mask_alter_value "ab" none (some 2) (some 2) = "abab" :=
  ⟨by decide,
   (partial_mask_overlap_boundary "ab" none (some 2) (some 2) (by decide)).2⟩

/-! ## `md5` provider claim -/

/-- Membership in the lowercase hexadecimal alphabet, as a Boolean. -/
def isHexLower (c : Char) : Bool := hexDigits.contains c

set_option maxRecDepth 40000 in
/-- Claim C9: without `as_number` the `md5` provider returns the lowercase
32-hex-character digest of the UTF-8 input (`md5("abc")` is the RFC 1321
reference value), and with `as_number` it returns the digest read as a
base-16 integer modulo `10 ^ as_number_length` (default 8), hence always
strictly below `10 ^ as_number_length`. -/
theorem md5_provider_contract :
    md5_alter_value "abc" none none =
      MD5Result.str "900150983cd24fb0d6963f7d28e17f72" ∧
    (∀ v nl, ∃ hsh, md5_alter_value v none nl = MD5Result.str hsh ∧
      hsh.length = 32 ∧ hsh.data.all isHexLower = true) ∧
    (∀ v nl, ∃ k, md5_alter_value v (some true) nl = MD5Result.num k ∧
      k < 10 ^ nl.getD 8) := by
  refine ⟨by decide, fun v nl => ?_, fun v nl => ?_⟩
  · refine ⟨md5HexString v, rfl, length_md5HexString_data v, ?_⟩
    rw [List.all_eq_true]
    intro c hc
    exact List.elem_iff.mpr (mem_md5HexString_hex v c hc)
  · exact ⟨_, rfl, Nat.mod_lt _ (by positivity)⟩
